import Mathlib

/-
  Verification development for the geocat.comp package
  (src/src/geocat/comp/__init__.py).

  The package is a thin glue layer around the opaque native library
  `_ncomp`: the only function defined in the repository source is
  `linint2`, which resolves argument defaults, builds the output chunk
  specification, dispatches the native kernel `_ncomp._linint2`
  blockwise over a dask-backed xarray.DataArray via
  dask.array.core.map_blocks, computes the result, and reattaches
  metadata (dims, coords, attrs) when `meta=True`.

  Shallow embedding choices:
  - numpy arrays are shape + flat data + dtype records; element values
    are carried as integers (the glue performs no arithmetic on them,
    the kernel is an abstract parameter);
  - a dask array is a declared chunk specification together with its
    list of blocks; blocks are stacked along the leading axis (the
    usage pattern of the module: map_blocks with drop_axis/new_axis on
    the two rightmost axes requires those axes to be single-chunk), so
    `compute` concatenates block data along axis 0;
  - an xarray.DataArray is dims + name-keyed coords + attrs + backing
    data (numpy- or dask-backed; `.chunks` is None exactly when
    numpy-backed);
  - the native library `_ncomp` is a structure of abstract functions
    (the `_linint2` kernel and the `dtype_default_fill` table);
  - Python exceptions are an `Except` error monad, with the error
    raised first in program order.
-/

namespace GeocatComp

/-- The numpy dtypes that matter to the glue layer: the fill-value
table and the map_blocks dtype argument are keyed on them. -/
inductive DType
  | float64
  | float32
  | int64
deriving DecidableEq, Repr

/-- Element values carried by arrays. The glue performs no arithmetic
on them, so an opaque discrete carrier is faithful. -/
abbrev Val := Int

/-- A numpy ndarray: shape tuple, flat row-major data, dtype. -/
structure NDArray where
  shape : List Nat
  data : List Val
  dtype : DType
deriving DecidableEq, Repr

/-- A dask chunk specification: for each axis, the list of chunk sizes
along that axis (dask `array.chunks`, a tuple of tuples). -/
abbrev ChunkSpec := List (List Nat)

/-- A dask array: declared chunks, the blocks (stacked along the
leading axis), and the dtype. -/
structure DaskArray where
  chunks : ChunkSpec
  blocks : List NDArray
  dtype : DType
deriving DecidableEq, Repr

/-- The backing data of an xarray.DataArray: in-memory numpy, or
dask-backed. -/
inductive ArrayData
  | numpyData (a : NDArray)
  | daskData (d : DaskArray)
deriving DecidableEq, Repr

/-- The dtype of the backing data. -/
def ArrayData.dtype : ArrayData → DType
  | .numpyData a => a.dtype
  | .daskData d => d.dtype

/-- An xarray.DataArray: ordered dimension names, name-keyed coordinate
variables (insertion-ordered mapping, as in xarray), attributes, and
the backing data. -/
structure DataArray where
  dims : List String
  coords : List (String × NDArray)
  attrs : List (String × String)
  data : ArrayData
deriving DecidableEq, Repr

/-- The dtype of a DataArray is its backing data's dtype. -/
def DataArray.dtype (da : DataArray) : DType := da.data.dtype

/-- The `fi` argument of linint2: documented as DataArray or ndarray. -/
inductive FiInput
  | ndarray (a : NDArray)
  | dataArray (da : DataArray)
deriving DecidableEq, Repr

/-- The dtype of `fi` (both ndarray and DataArray expose `.dtype`). -/
def FiInput.dtype : FiInput → DType
  | .ndarray a => a.dtype
  | .dataArray da => da.dtype

/-- Python exceptions raised by the code paths of linint2. -/
inductive PyError
  | attributeError
  | typeError
  | keyError
  | indexError
deriving DecidableEq, Repr

/-- Python `l[-1]`, as an Option (raises IndexError when empty). -/
def atNeg1? (l : List α) : Option α := l.getLast?

/-- Python `l[-2]`, as an Option (raises IndexError when too short). -/
def atNeg2? (l : List α) : Option α := l.dropLast.getLast?

/-- Python slice `l[-2:]`. -/
def lastTwo (l : List α) : List α := l.drop (l.length - 2)

/-- Python slice assignment `l[-2:] = (a, b)` as a pure value: the
last two elements (or fewer, when the list is shorter) are replaced by
`a` and `b`. -/
def setLastTwo (l : List α) (a b : α) : List α :=
  l.take (l.length - 2) ++ [a, b]

/-- The opaque native library `_ncomp`: the `_linint2` kernel with
argument order (xi, yi, fi_block, xo, yo, icycx, xmsg), and the
`dtype_default_fill` dictionary. -/
structure NComp where
  linint2K : NDArray → NDArray → NDArray → NDArray → NDArray → Bool → Val → NDArray
  dtypeDefaultFill : DType → Val

/-- Python `fi.coords[fi.dims[-1]].values`: a plain ndarray has no
`.coords` (AttributeError); an empty dims tuple raises IndexError; a
missing coordinate key raises KeyError. -/
def FiInput.coordOfLastDim : FiInput → Except PyError NDArray
  | .ndarray _ => .error .attributeError
  | .dataArray da =>
    match atNeg1? da.dims with
    | none => .error .indexError
    | some d =>
      match da.coords.lookup d with
      | none => .error .keyError
      | some v => .ok v

/-- Python `fi.coords[fi.dims[-2]].values`, with the same failure
modes as `coordOfLastDim`. -/
def FiInput.coordOfSecondLastDim : FiInput → Except PyError NDArray
  | .ndarray _ => .error .attributeError
  | .dataArray da =>
    match atNeg2? da.dims with
    | none => .error .indexError
    | some d =>
      match da.coords.lookup d with
      | none => .error .keyError
      | some v => .ok v

/-- Mirrors `if xmsg is None: xmsg = _ncomp.dtype_default_fill[fi.dtype]`. -/
def resolveXmsg (nc : NComp) (fi : FiInput) (xmsg : Option Val) : Val :=
  match xmsg with
  | some v => v
  | none => nc.dtypeDefaultFill fi.dtype

/-- Mirrors `if xi is None: xi = fi.coords[fi.dims[-1]].values`. -/
def resolveXi (fi : FiInput) (xi : Option NDArray) : Except PyError NDArray :=
  match xi with
  | some v => .ok v
  | none => fi.coordOfLastDim

/-- Mirrors `if yi is None: yi = fi.coords[fi.dims[-2]].values`. -/
def resolveYi (fi : FiInput) (yi : Option NDArray) : Except PyError NDArray :=
  match yi with
  | some v => .ok v
  | none => fi.coordOfSecondLastDim

/-- Python `fi.chunks` followed by `list(fi.chunks)`, identifying the
dask backing: a plain ndarray has no `.chunks` (AttributeError); an
in-memory DataArray has `chunks is None`, so `list(None)` raises
TypeError; a dask-backed DataArray yields its dask array. -/
def FiInput.daskBacking : FiInput → Except PyError DaskArray
  | .ndarray _ => .error .attributeError
  | .dataArray da =>
    match da.data with
    | .numpyData _ => .error .typeError
    | .daskData d => .ok d

/-- The chunk specification linint2 declares for the map_blocks output:
`fo_chunks = list(fi.chunks); fo_chunks[-2:] = (yo.shape, xo.shape)`.
The two new rightmost axes each carry one chunk of the full yo and xo
shapes. -/
def linint2DeclaredChunks (d : DaskArray) (xo yo : NDArray) : ChunkSpec :=
  setLastTwo d.chunks yo.shape xo.shape

/-- The dask.array.core.map_blocks call of linint2, specialized to its
usage: the kernel is applied to every block of fi's data together with
the broadcast arguments (xi, yi, xo, yo, icycx, xmsg), and the result
carries the declared output chunks and dtype. The drop_axis/new_axis
arguments at fi.ndim-2 and fi.ndim-1 are reflected in the declared
chunks. -/
def mapBlocksLinint2 (k : NDArray → NDArray → NDArray → NDArray → NDArray → Bool → Val → NDArray)
    (xiV yiV : NDArray) (fiData : DaskArray) (xo yo : NDArray)
    (icycx : Bool) (xmsgV : Val) (foChunks : ChunkSpec) (dt : DType) : DaskArray :=
  { chunks := foChunks
    blocks := fiData.blocks.map (fun b => k xiV yiV b xo yo icycx xmsgV)
    dtype := dt }

/-- The shape of the concatenation along axis 0 of blocks with the
given shapes: the leading sizes add, the trailing sizes come from the
first block. -/
def concatShape : List (List Nat) → List Nat
  | [] => []
  | s :: rest => (s.headD 0 + (rest.map (fun t => t.headD 0)).sum) :: s.tail

/-- Materializes a dask array (`fo.compute()`): blocks stacked along
the leading axis are concatenated. -/
def DaskArray.compute (a : DaskArray) : NDArray :=
  { shape := concatShape (a.blocks.map NDArray.shape)
    data := (a.blocks.map NDArray.data).flatten
    dtype := a.dtype }

/-- The default dimension names xarray assigns when a DataArray is
built from a bare array: dim_0, dim_1, ... -/
def defaultDims (n : Nat) : List String :=
  (List.range n).map (fun i => "dim_" ++ toString i)

/-- The coords dict comprehension of the meta=True branch:
every coordinate keeps its value unless its name is one of the two
rightmost dimension names, in which case it becomes xo (rightmost) or
yo (second rightmost). -/
def metaCoords (da : DataArray) (xo yo : NDArray) : List (String × NDArray) :=
  da.coords.map (fun kv =>
    (kv.1,
      if kv.1 ∈ lastTwo da.dims then
        (if atNeg1? da.dims = some kv.1 then xo else yo)
      else kv.2))

/-- The materialized numerical result of a successful linint2 call:
`map_blocks(_ncomp._linint2, xi, yi, fi_data, xo, yo, icycx, xmsg,
chunks=fo_chunks, dtype=fi.dtype, ...)` followed by `fo.compute()`. -/
def linint2ComputedResult (nc : NComp) (fi : FiInput) (xiV yiV : NDArray)
    (d : DaskArray) (xo yo : NDArray) (icycx : Bool) (xmsgV : Val) : NDArray :=
  (mapBlocksLinint2 nc.linint2K xiV yiV d xo yo icycx xmsgV
    (linint2DeclaredChunks d xo yo) fi.dtype).compute

/-- The meta=True branch:
`xr.DataArray(result, attrs=fi.attrs, dims=fi.dims, coords=coords)`. -/
def linint2MetaResult (da : DataArray) (res : NDArray) (xo yo : NDArray) : DataArray :=
  { dims := da.dims
    coords := metaCoords da xo yo
    attrs := da.attrs
    data := .numpyData res }

/-- The meta=False branch: `xr.DataArray(result)`, a fresh wrapper with
default dimension names and no coords or attrs. -/
def linint2PlainResult (res : NDArray) : DataArray :=
  { dims := defaultDims res.shape.length
    coords := []
    attrs := []
    data := .numpyData res }

/-- The linint2 function of geocat.comp, mirrored statement by
statement from the source. Arguments follow the Python signature
`linint2(fi, xo, yo, icycx, xmsg=None, meta=True, xi=None, yi=None)`,
with the native library passed explicitly. -/
def linint2 (nc : NComp) (fi : FiInput) (xo yo : NDArray) (icycx : Bool)
    (xmsg : Option Val) (meta : Bool) (xi yi : Option NDArray) :
    Except PyError DataArray :=
  let xmsgV := resolveXmsg nc fi xmsg
  match resolveXi fi xi with
  | .error e => .error e
  | .ok xiV =>
    match resolveYi fi yi with
    | .error e => .error e
    | .ok yiV =>
      match fi.daskBacking with
      | .error e => .error e
      | .ok d =>
        let result := linint2ComputedResult nc fi xiV yiV d xo yo icycx xmsgV
        match fi with
        | .ndarray _ =>
          -- unreachable: daskBacking raised AttributeError above
          .error .attributeError
        | .dataArray da =>
          if meta then
            .ok (linint2MetaResult da result xo yo)
          else
            .ok (linint2PlainResult result)

/-- The names defined by the repository source file
src/src/geocat/comp/__init__.py: only linint2. -/
def srcDefinedNames : List String := ["linint2"]

/-- Modelled from the spec: the package also provides the EOF functions
`eofunc_eofs` and `eofunc_pcs` and the legacy aliases `eofunc` and
`eofunc_ts` (the spec's purpose statement and the test suite's import
line name them), but their defining module is not present under src/.
Only their presence as importable package names is modelled. -/
def specModelledEofNames : List String :=
  ["eofunc_eofs", "eofunc_pcs", "eofunc", "eofunc_ts"]

/-- The importable public names of the geocat.comp package. -/
def geocatCompNames : List String := srcDefinedNames ++ specModelledEofNames

/-- Written from the spec sentence for the refinement claim: the
numerical data of linint2's result is the blockwise application of the
native kernel `_ncomp._linint2` to (xi, yi, each chunk of fi's data,
xo, yo, icycx, xmsg). -/
def linint2BlockwiseData (k : NDArray → NDArray → NDArray → NDArray → NDArray → Bool → Val → NDArray)
    (xiV yiV : NDArray) (d : DaskArray) (xo yo : NDArray)
    (icycx : Bool) (xmsgV : Val) : List NDArray :=
  d.blocks.map (fun b => k xiV yiV b xo yo icycx xmsgV)

/-- The full argument tuple of a linint2 call, bundled. -/
structure Linint2Args where
  fi : FiInput
  xo : NDArray
  yo : NDArray
  icycx : Bool
  xmsg : Option Val
  meta : Bool
  xi : Option NDArray
  yi : Option NDArray
deriving DecidableEq, Repr

/-- A linint2 call on a bundled argument tuple. -/
def linint2Call (nc : NComp) (a : Linint2Args) : Except PyError DataArray :=
  linint2 nc a.fi a.xo a.yo a.icycx a.xmsg a.meta a.xi a.yi

/-- A store of Python list objects holding chunk specifications, for
observing mutation: cells are addressed by index, and the arguments of
a call are references into the store. -/
structure ChunkStore where
  cells : List ChunkSpec
deriving DecidableEq, Repr

/-- Reads the list object at a reference. -/
def ChunkStore.read (s : ChunkStore) (r : Nat) : Option ChunkSpec :=
  s.cells[r]?

/-- Allocates a fresh list object; returns the store and the fresh
reference. -/
def ChunkStore.alloc (s : ChunkStore) (v : ChunkSpec) : ChunkStore × Nat :=
  ({ cells := s.cells ++ [v] }, s.cells.length)

/-- Overwrites the list object at a reference in place. -/
def ChunkStore.write (s : ChunkStore) (r : Nat) (v : ChunkSpec) : ChunkStore :=
  { cells := s.cells.set r v }

/-- The only mutating statements in the body of linint2, run against
the store: `fo_chunks = list(fi.chunks)` allocates a fresh copy of the
list behind fi.chunks, and the slice assignment
`fo_chunks[-2:] = (yo.shape, xo.shape)` writes that fresh copy in
place. Returns the store and the reference holding fo_chunks. -/
def foChunksProg (s : ChunkStore) (fiChunksRef : Nat) (yoShape xoShape : List Nat) :
    Except PyError (ChunkStore × Nat) :=
  match s.read fiChunksRef with
  | none => .error .typeError
  | some c =>
    let s1 := (s.alloc c).1
    let r1 := (s.alloc c).2
    match s1.read r1 with
    | none => .error .indexError
    | some c1 => .ok (s1.write r1 (setLastTwo c1 yoShape xoShape), r1)

/-- A sample native library instance for concrete evaluation: the
kernel echoes its fi block and the fill table is constantly 0. -/
def sampleNComp : NComp :=
  { linint2K := fun _ _ b _ _ _ _ => b
    dtypeDefaultFill := fun _ => 0 }

/-- A sample 1-D output X coordinate array of length 3. -/
def sampleXo : NDArray := { shape := [3], data := [10, 11, 12], dtype := .float64 }

/-- A sample 1-D output Y coordinate array of length 2. -/
def sampleYo : NDArray := { shape := [2], data := [20, 21], dtype := .float64 }

/-- A sample block of shape (1, 2, 4). -/
def sampleBlock : NDArray :=
  { shape := [1, 2, 4], data := [0, 1, 2, 3, 4, 5, 6, 7], dtype := .float64 }

/-- A sample dask array of shape (2, 2, 4), chunked into two blocks
along the leading axis. -/
def sampleDask : DaskArray :=
  { chunks := [[1, 1], [2], [4]]
    blocks := [sampleBlock, sampleBlock]
    dtype := .float64 }

/-- A sample input X coordinate of length 4 (the lon coordinate). -/
def sampleXiCoord : NDArray := { shape := [4], data := [0, 1, 2, 3], dtype := .float64 }

/-- A sample input Y coordinate of length 2 (the lat coordinate). -/
def sampleYiCoord : NDArray := { shape := [2], data := [5, 6], dtype := .float64 }

/-- A sample non-spatial coordinate (the time coordinate). -/
def sampleTimeCoord : NDArray := { shape := [2], data := [100, 101], dtype := .float64 }

/-- A sample chunked, dask-backed DataArray with dims (time, lat, lon). -/
def sampleDa : DataArray :=
  { dims := ["time", "lat", "lon"]
    coords := [("time", sampleTimeCoord), ("lat", sampleYiCoord), ("lon", sampleXiCoord)]
    attrs := [("units", "K")]
    data := .daskData sampleDask }

/-- A sample in-memory numpy array of shape (2, 2, 4). -/
def sampleNp : NDArray :=
  { shape := [2, 2, 4]
    data := (List.range 16).map Int.ofNat
    dtype := .float64 }

/-- A sample unchunked, numpy-backed DataArray with the same labels as
`sampleDa`. -/
def sampleNpDa : DataArray :=
  { dims := ["time", "lat", "lon"]
    coords := [("time", sampleTimeCoord), ("lat", sampleYiCoord), ("lon", sampleXiCoord)]
    attrs := [("units", "K")]
    data := .numpyData sampleNp }

/-- A sample argument bundle for a linint2 call. -/
def sampleArgs : Linint2Args :=
  { fi := .dataArray sampleDa
    xo := sampleXo
    yo := sampleYo
    icycx := false
    xmsg := none
    meta := true
    xi := none
    yi := none }

/-- A sample store holding one chunk-specification list object. -/
def sampleStore : ChunkStore := { cells := [[[1, 1], [2], [4]]] }

/-- A sample native library whose kernel outputs blocks of the
interpolated spatial shape, as the real interpolation kernel does:
the block keeps its leading sizes and its two rightmost sizes become
the lengths of yo and xo. -/
def sampleInterpNComp : NComp :=
  { linint2K := fun _ _ b xo yo _ _ =>
      { shape := b.shape.take (b.shape.length - 2) ++
          [yo.shape.headD 0, xo.shape.headD 0]
        data := []
        dtype := b.dtype }
    dtypeDefaultFill := fun _ => 0 }

/-- Shared elimination lemma: a successful linint2 call on a DataArray
input went through successful xi and yi resolution and a dask backing,
and its result is the meta or plain wrapper of the computed array. -/
theorem linint2_ok_elim (nc : NComp) (da : DataArray) (xo yo : NDArray)
    (icycx : Bool) (xmsg : Option Val) (meta : Bool) (xi yi : Option NDArray)
    (r : DataArray)
    (hok : linint2 nc (.dataArray da) xo yo icycx xmsg meta xi yi = .ok r) :
    ∃ xiV yiV d,
      resolveXi (.dataArray da) xi = .ok xiV ∧
      resolveYi (.dataArray da) yi = .ok yiV ∧
      FiInput.daskBacking (.dataArray da) = .ok d ∧
      r = (if meta then
            linint2MetaResult da
              (linint2ComputedResult nc (.dataArray da) xiV yiV d xo yo icycx
                (resolveXmsg nc (.dataArray da) xmsg)) xo yo
          else
            linint2PlainResult
              (linint2ComputedResult nc (.dataArray da) xiV yiV d xo yo icycx
                (resolveXmsg nc (.dataArray da) xmsg))) := by
  unfold linint2 at hok
  cases hxi : resolveXi (.dataArray da) xi with
  | error e => rw [hxi] at hok; exact absurd hok (by simp)
  | ok xiV =>
    rw [hxi] at hok
    cases hyi : resolveYi (.dataArray da) yi with
    | error e => rw [hyi] at hok; exact absurd hok (by simp)
    | ok yiV =>
      rw [hyi] at hok
      cases hdb : FiInput.daskBacking (.dataArray da) with
      | error e => rw [hdb] at hok; exact absurd hok (by simp)
      | ok d =>
        rw [hdb] at hok
        refine ⟨xiV, yiV, d, rfl, rfl, rfl, ?_⟩
        cases meta with
        | true => simp only [if_true] at hok ⊢; simp at hok; exact hok.symm
        | false => simp only [if_false] at hok ⊢; simp at hok; exact hok.symm

/-- C1: the package geocat.comp provides the public names linint2,
eofunc_eofs, eofunc_pcs and the legacy aliases eofunc and eofunc_ts:
each of them is among the package's importable names. -/
theorem c1_public_interface :
    "linint2" ∈ geocatCompNames ∧
    "eofunc_eofs" ∈ geocatCompNames ∧
    "eofunc_pcs" ∈ geocatCompNames ∧
    "eofunc" ∈ geocatCompNames ∧
    "eofunc_ts" ∈ geocatCompNames := by
  decide

/-- C6: linint2 is stateless and deterministic modulo the native
kernel. The body of linint2 only binds local names and builds fresh
values, so its embedding is a pure function of the native library and
the argument tuple: two calls with equal native libraries and equal
arguments return equal results. -/
theorem c6_stateless_deterministic (nc nc2 : NComp) (a b : Linint2Args)
    (hnc : nc = nc2) (hab : a = b) :
    linint2Call nc a = linint2Call nc2 b := by
  subst hnc
  subst hab
  rfl

/-- Witness for C6 at a concrete native library and argument tuple. -/
theorem c6_stateless_deterministic_witness :
    linint2Call sampleNComp sampleArgs = linint2Call sampleNComp sampleArgs :=
  c6_stateless_deterministic sampleNComp sampleNComp sampleArgs sampleArgs rfl rfl

/-- C8: linint2's argument defaults. A missing xmsg becomes the native
library's default fill value for fi's dtype, and missing xi and yi
become the coordinate values of fi's rightmost and second-rightmost
dimensions: the call with defaults equals the call with those values
passed explicitly. -/
theorem c8_argument_defaults (nc : NComp) (fi : FiInput) (xo yo : NDArray)
    (icycx : Bool) (meta : Bool) (cx cy : NDArray)
    (hx : fi.coordOfLastDim = .ok cx)
    (hy : fi.coordOfSecondLastDim = .ok cy) :
    resolveXmsg nc fi none = nc.dtypeDefaultFill fi.dtype ∧
    linint2 nc fi xo yo icycx none meta none none =
      linint2 nc fi xo yo icycx (some (nc.dtypeDefaultFill fi.dtype)) meta
        (some cx) (some cy) := by
  refine ⟨rfl, ?_⟩
  unfold linint2
  simp [resolveXi, resolveYi, resolveXmsg, hx, hy]

/-- Witness for C8 at the sample chunked DataArray, whose rightmost
and second-rightmost dimension coordinates are lon and lat. -/
theorem c8_argument_defaults_witness :
    FiInput.coordOfLastDim (.dataArray sampleDa) = .ok sampleXiCoord ∧
    FiInput.coordOfSecondLastDim (.dataArray sampleDa) = .ok sampleYiCoord ∧
    (resolveXmsg sampleNComp (.dataArray sampleDa) none =
        sampleNComp.dtypeDefaultFill (FiInput.dtype (.dataArray sampleDa)) ∧
      linint2 sampleNComp (.dataArray sampleDa) sampleXo sampleYo false none true none none =
        linint2 sampleNComp (.dataArray sampleDa) sampleXo sampleYo false
          (some (sampleNComp.dtypeDefaultFill (FiInput.dtype (.dataArray sampleDa)))) true
          (some sampleXiCoord) (some sampleYiCoord)) :=
  ⟨rfl, rfl,
    c8_argument_defaults sampleNComp (.dataArray sampleDa) sampleXo sampleYo false true
      sampleXiCoord sampleYiCoord rfl rfl⟩

/-- C7: despite the documented ndarray interface, linint2 requires a
chunked dask-backed DataArray. A plain numpy ndarray always raises
AttributeError (an ndarray has no .coords and no .chunks), and a
numpy-backed (unchunked) DataArray whose xi and yi resolution succeeds
raises TypeError, because fi.chunks is None when the output chunk list
is built. -/
theorem c7_requires_chunked_dask (nc : NComp) (xo yo : NDArray) (icycx : Bool)
    (xmsg : Option Val) (meta : Bool) (xi yi : Option NDArray) :
    (∀ a : NDArray,
      linint2 nc (.ndarray a) xo yo icycx xmsg meta xi yi = .error .attributeError) ∧
    (∀ (da : DataArray) (npa : NDArray), da.data = .numpyData npa →
      (∃ v, resolveXi (.dataArray da) xi = .ok v) →
      (∃ w, resolveYi (.dataArray da) yi = .ok w) →
      linint2 nc (.dataArray da) xo yo icycx xmsg meta xi yi = .error .typeError) := by
  constructor
  · intro a
    cases xi with
    | none =>
      simp [linint2, resolveXi, FiInput.coordOfLastDim]
    | some v =>
      cases yi with
      | none =>
        simp [linint2, resolveXi, resolveYi, FiInput.coordOfSecondLastDim]
      | some w =>
        simp [linint2, resolveXi, resolveYi, FiInput.daskBacking]
  · rintro da npa hnp ⟨v, hv⟩ ⟨w, hw⟩
    unfold linint2
    rw [hv, hw]
    simp [FiInput.daskBacking, hnp]

/-- Witness for C7: the sample ndarray input raises AttributeError and
the sample numpy-backed DataArray raises TypeError. -/
theorem c7_requires_chunked_dask_witness :
    linint2 sampleNComp (.ndarray sampleNp) sampleXo sampleYo false none true none none =
      .error .attributeError ∧
    linint2 sampleNComp (.dataArray sampleNpDa) sampleXo sampleYo false none true none none =
      .error .typeError :=
  ⟨(c7_requires_chunked_dask sampleNComp sampleXo sampleYo false none true none none).1
      sampleNp,
    (c7_requires_chunked_dask sampleNComp sampleXo sampleYo false none true none none).2
      sampleNpDa sampleNp rfl ⟨sampleXiCoord, rfl⟩ ⟨sampleYiCoord, rfl⟩⟩

/-- C5: linint2 always returns a DataArray wrapper on success. With
meta=True it carries fi's labels (dims and attrs), and with meta=False
it is a freshly wrapped DataArray with default dimension names
dim_0, dim_1, ... and no coords or attrs. -/
theorem c5_returns_labeled_wrapper (nc : NComp) (da : DataArray) (xo yo : NDArray)
    (icycx : Bool) (xmsg : Option Val) (meta : Bool) (xi yi : Option NDArray)
    (r : DataArray)
    (hok : linint2 nc (.dataArray da) xo yo icycx xmsg meta xi yi = .ok r) :
    (meta = true → r.dims = da.dims ∧ r.attrs = da.attrs) ∧
    (meta = false → r.coords = [] ∧ r.attrs = [] ∧
      ∃ a : NDArray, r.data = .numpyData a ∧ r.dims = defaultDims a.shape.length) := by
  obtain ⟨xiV, yiV, d, -, -, -, hr⟩ :=
    linint2_ok_elim nc da xo yo icycx xmsg meta xi yi r hok
  cases meta with
  | true =>
    subst hr
    exact ⟨fun _ => ⟨rfl, rfl⟩, fun h => by cases h⟩
  | false =>
    subst hr
    constructor
    · intro h
      cases h
    · intro h2
      refine ⟨rfl, rfl, ?_⟩
      exact ⟨linint2ComputedResult nc (.dataArray da) xiV yiV d xo yo icycx
        (resolveXmsg nc (.dataArray da) xmsg), rfl, rfl⟩

/-- Witness for C5 at a concrete successful call with meta=False. -/
theorem c5_returns_labeled_wrapper_witness :
    ∃ r : DataArray,
      linint2 sampleNComp (.dataArray sampleDa) sampleXo sampleYo false none false none none =
        .ok r ∧
      ((false = true → r.dims = sampleDa.dims ∧ r.attrs = sampleDa.attrs) ∧
       (false = false → r.coords = [] ∧ r.attrs = [] ∧
         ∃ a : NDArray, r.data = .numpyData a ∧ r.dims = defaultDims a.shape.length)) :=
  ⟨linint2PlainResult
      (linint2ComputedResult sampleNComp (.dataArray sampleDa) sampleXiCoord sampleYiCoord
        sampleDask sampleXo sampleYo false 0),
    rfl,
    c5_returns_labeled_wrapper sampleNComp sampleDa sampleXo sampleYo false none false
      none none _ rfl⟩

/-- Coordinates whose name is not among the two rightmost dimension
names pass through the meta=True coords comprehension unchanged. -/
theorem metaCoords_mem_keep (da : DataArray) (xo yo : NDArray) (k : String)
    (v : NDArray) (hm : (k, v) ∈ da.coords) (hk : k ∉ lastTwo da.dims) :
    (k, v) ∈ metaCoords da xo yo := by
  unfold metaCoords
  have h1 := List.mem_map_of_mem
    (fun kv : String × NDArray =>
      (kv.1, if kv.1 ∈ lastTwo da.dims then
               (if atNeg1? da.dims = some kv.1 then xo else yo)
             else kv.2)) hm
  simpa [hk] using h1

/-- The coordinate named after the rightmost dimension is replaced by
xo in the meta=True coords comprehension. -/
theorem metaCoords_mem_last (da : DataArray) (xo yo : NDArray) (k : String)
    (v : NDArray) (hm : (k, v) ∈ da.coords) (hk : k ∈ lastTwo da.dims)
    (hdl : atNeg1? da.dims = some k) :
    (k, xo) ∈ metaCoords da xo yo := by
  unfold metaCoords
  have h1 := List.mem_map_of_mem
    (fun kv : String × NDArray =>
      (kv.1, if kv.1 ∈ lastTwo da.dims then
               (if atNeg1? da.dims = some kv.1 then xo else yo)
             else kv.2)) hm
  simpa [hk, hdl] using h1

/-- A coordinate among the two rightmost dimension names but not named
after the rightmost dimension is replaced by yo in the meta=True
coords comprehension. -/
theorem metaCoords_mem_second (da : DataArray) (xo yo : NDArray) (k : String)
    (v : NDArray) (hm : (k, v) ∈ da.coords) (hk : k ∈ lastTwo da.dims)
    (hdl : atNeg1? da.dims ≠ some k) :
    (k, yo) ∈ metaCoords da xo yo := by
  unfold metaCoords
  have h1 := List.mem_map_of_mem
    (fun kv : String × NDArray =>
      (kv.1, if kv.1 ∈ lastTwo da.dims then
               (if atNeg1? da.dims = some kv.1 then xo else yo)
             else kv.2)) hm
  simpa [hk, hdl] using h1

/-- C2: with meta=True on a chunked DataArray whose two rightmost
dimensions dl (rightmost) and ds (second rightmost) carry coordinates,
linint2 preserves metadata: the result has exactly fi's attrs and dims
in order, every coordinate named neither dl nor ds keeps its values,
and the dl and ds coordinates are replaced by xo and yo. -/
theorem c2_meta_metadata_preservation (nc : NComp) (da : DataArray)
    (xo yo : NDArray) (icycx : Bool) (xmsg : Option Val) (xi yi : Option NDArray)
    (r : DataArray) (dl ds : String)
    (hdl : atNeg1? da.dims = some dl)
    (hlt : lastTwo da.dims = [ds, dl])
    (hne : dl ≠ ds)
    (hok : linint2 nc (.dataArray da) xo yo icycx xmsg true xi yi = .ok r) :
    r.attrs = da.attrs ∧ r.dims = da.dims ∧
    (∀ k v, (k, v) ∈ da.coords → k ≠ dl → k ≠ ds → (k, v) ∈ r.coords) ∧
    (∀ v, (dl, v) ∈ da.coords → (dl, xo) ∈ r.coords) ∧
    (∀ v, (ds, v) ∈ da.coords → (ds, yo) ∈ r.coords) := by
  obtain ⟨xiV, yiV, d, -, -, -, hr⟩ :=
    linint2_ok_elim nc da xo yo icycx xmsg true xi yi r hok
  rw [if_pos rfl] at hr
  subst hr
  refine ⟨rfl, rfl, ?_, ?_, ?_⟩
  · intro k v hm hk1 hk2
    exact metaCoords_mem_keep da xo yo k v hm (by simp [hlt, hk1, hk2])
  · intro v hm
    exact metaCoords_mem_last da xo yo dl v hm (by simp [hlt]) hdl
  · intro v hm
    refine metaCoords_mem_second da xo yo ds v hm (by simp [hlt]) ?_
    rw [hdl]
    intro hcontra
    exact hne (Option.some.inj hcontra)

/-- Witness for C2 at the sample chunked DataArray with dims
(time, lat, lon): the time coordinate survives, lon becomes xo and lat
becomes yo. -/
theorem c2_meta_metadata_preservation_witness :
    atNeg1? sampleDa.dims = some "lon" ∧
    lastTwo sampleDa.dims = ["lat", "lon"] ∧
    ("lon" : String) ≠ "lat" ∧
    ∃ r : DataArray,
      linint2 sampleNComp (.dataArray sampleDa) sampleXo sampleYo false none true none none =
        .ok r ∧
      (r.attrs = sampleDa.attrs ∧ r.dims = sampleDa.dims ∧
        (∀ k v, (k, v) ∈ sampleDa.coords → k ≠ "lon" → k ≠ "lat" → (k, v) ∈ r.coords) ∧
        (∀ v, ("lon", v) ∈ sampleDa.coords → ("lon", sampleXo) ∈ r.coords) ∧
        (∀ v, ("lat", v) ∈ sampleDa.coords → ("lat", sampleYo) ∈ r.coords)) :=
  ⟨rfl, rfl, by decide,
    ⟨linint2MetaResult sampleDa
        (linint2ComputedResult sampleNComp (.dataArray sampleDa) sampleXiCoord sampleYiCoord
          sampleDask sampleXo sampleYo false 0) sampleXo sampleYo,
      rfl,
      c2_meta_metadata_preservation sampleNComp sampleDa sampleXo sampleYo false none
        none none _ "lon" "lat" rfl rfl (by decide) rfl⟩⟩

/-- C3: linint2 performs no interpolation arithmetic itself. The
numerical data of its result is exactly the blockwise application of
the native kernel to (xi, yi, each block of fi's data, xo, yo, icycx,
xmsg), assembled by the concatenating compute step; the glue only
arranges shapes, chunks and metadata around that call. -/
theorem c3_blockwise_refinement (nc : NComp) (da : DataArray) (d : DaskArray)
    (xo yo : NDArray) (icycx : Bool) (xmsg : Option Val) (meta : Bool)
    (xi yi : Option NDArray) (xiV yiV : NDArray) (r : DataArray)
    (hdata : da.data = .daskData d)
    (hxi : resolveXi (.dataArray da) xi = .ok xiV)
    (hyi : resolveYi (.dataArray da) yi = .ok yiV)
    (hok : linint2 nc (.dataArray da) xo yo icycx xmsg meta xi yi = .ok r) :
    ∃ res : NDArray, r.data = .numpyData res ∧
      res.data = ((linint2BlockwiseData nc.linint2K xiV yiV d xo yo icycx
        (resolveXmsg nc (.dataArray da) xmsg)).map NDArray.data).flatten ∧
      res.shape = concatShape ((linint2BlockwiseData nc.linint2K xiV yiV d xo yo icycx
        (resolveXmsg nc (.dataArray da) xmsg)).map NDArray.shape) := by
  obtain ⟨xiV2, yiV2, d2, hxi2, hyi2, hdb2, hr⟩ :=
    linint2_ok_elim nc da xo yo icycx xmsg meta xi yi r hok
  rw [hxi] at hxi2
  rw [hyi] at hyi2
  have hdb : FiInput.daskBacking (.dataArray da) = .ok d := by
    simp [FiInput.daskBacking, hdata]
  rw [hdb] at hdb2
  obtain rfl : xiV = xiV2 := Except.ok.inj hxi2
  obtain rfl : yiV = yiV2 := Except.ok.inj hyi2
  obtain rfl : d = d2 := Except.ok.inj hdb2
  cases meta with
  | true =>
    rw [if_pos rfl] at hr
    subst hr
    exact ⟨_, rfl, rfl, rfl⟩
  | false =>
    rw [if_neg (by simp)] at hr
    subst hr
    exact ⟨_, rfl, rfl, rfl⟩

/-- Witness for C3 at the sample chunked DataArray: the result data is
the flattened list of kernel outputs on the two sample blocks. -/
theorem c3_blockwise_refinement_witness :
    sampleDa.data = .daskData sampleDask ∧
    resolveXi (.dataArray sampleDa) none = .ok sampleXiCoord ∧
    resolveYi (.dataArray sampleDa) none = .ok sampleYiCoord ∧
    ∃ r : DataArray,
      linint2 sampleNComp (.dataArray sampleDa) sampleXo sampleYo false none true none none =
        .ok r ∧
      ∃ res : NDArray, r.data = .numpyData res ∧
        res.data = ((linint2BlockwiseData sampleNComp.linint2K sampleXiCoord sampleYiCoord
          sampleDask sampleXo sampleYo false
          (resolveXmsg sampleNComp (.dataArray sampleDa) none)).map NDArray.data).flatten ∧
        res.shape = concatShape ((linint2BlockwiseData sampleNComp.linint2K sampleXiCoord
          sampleYiCoord sampleDask sampleXo sampleYo false
          (resolveXmsg sampleNComp (.dataArray sampleDa) none)).map NDArray.shape) :=
  ⟨rfl, rfl, rfl,
    ⟨linint2MetaResult sampleDa
        (linint2ComputedResult sampleNComp (.dataArray sampleDa) sampleXiCoord sampleYiCoord
          sampleDask sampleXo sampleYo false 0) sampleXo sampleYo,
      rfl,
      c3_blockwise_refinement sampleNComp sampleDa sampleDask sampleXo sampleYo false none
        true none none sampleXiCoord sampleYiCoord _ rfl rfl rfl rfl⟩⟩

/-- C9: linint2 does not modify its arguments. The only mutating
statements in its body are the list copy and the slice assignment that
build fo_chunks; run against a store of list objects, they leave the
argument's list unchanged, allocate exactly one fresh object, and that
fresh object (the newly constructed result) holds the updated chunk
specification. -/
theorem c9_no_argument_mutation (s : ChunkStore) (ref : Nat)
    (yoShape xoShape : List Nat) (c : ChunkSpec)
    (hread : s.read ref = some c) :
    ∃ s2 r2, foChunksProg s ref yoShape xoShape = .ok (s2, r2) ∧
      s2.read ref = some c ∧
      r2 ≠ ref ∧
      s2.read r2 = some (setLastTwo c yoShape xoShape) ∧
      s2.cells.length = s.cells.length + 1 := by
  have href : ref < s.cells.length := (List.getElem?_eq_some.mp hread).1
  have hfresh : (s.cells ++ [c])[s.cells.length]? = some c :=
    List.getElem?_concat_length s.cells c
  refine ⟨(ChunkStore.write ⟨s.cells ++ [c]⟩ s.cells.length
      (setLastTwo c yoShape xoShape)), s.cells.length, ?_, ?_, ?_, ?_, ?_⟩
  · unfold foChunksProg
    rw [hread]
    simp only [ChunkStore.alloc, ChunkStore.read, hfresh]
  · show (((s.cells ++ [c]).set s.cells.length (setLastTwo c yoShape xoShape)))[ref]? =
      some c
    rw [List.getElem?_set_ne (Nat.ne_of_gt href)]
    rw [List.getElem?_append_left href]
    exact hread
  · exact Nat.ne_of_gt href
  · show (((s.cells ++ [c]).set s.cells.length (setLastTwo c yoShape xoShape)))[s.cells.length]? =
      some (setLastTwo c yoShape xoShape)
    refine List.getElem?_set_eq_of_lt _ ?_
    simp
  · simp [ChunkStore.write]

/-- Witness for C9 at the sample store: the argument cell survives the
call and the fresh cell holds the updated chunk list. -/
theorem c9_no_argument_mutation_witness :
    sampleStore.read 0 = some [[1, 1], [2], [4]] ∧
    ∃ s2 r2, foChunksProg sampleStore 0 [2] [3] = .ok (s2, r2) ∧
      s2.read 0 = some [[1, 1], [2], [4]] ∧
      r2 ≠ 0 ∧
      s2.read r2 = some (setLastTwo [[1, 1], [2], [4]] [2] [3]) ∧
      s2.cells.length = sampleStore.cells.length + 1 :=
  ⟨rfl, c9_no_argument_mutation sampleStore 0 [2] [3] [[1, 1], [2], [4]] rfl⟩

/-- Unfolding lemma for the shape of a one-step block concatenation. -/
theorem concatShape_cons (s : List Nat) (rest : List (List Nat)) :
    concatShape (s :: rest) =
      (s.headD 0 + (rest.map (fun t => t.headD 0)).sum) :: s.tail := rfl

/-- Shape analysis of the computed result: when every kernel output
block keeps its block's leading sizes and carries the two new trailing
sizes ny and nx, the concatenated result shape is a leading part of
length n-2 followed by [ny, nx]. -/
theorem computed_shape_split (nc : NComp) (fi : FiInput) (xiV yiV : NDArray)
    (d : DaskArray) (xo yo : NDArray) (icycx : Bool) (xmsgV : Val)
    (ny nx n : Nat)
    (hker : ∀ b ∈ d.blocks, (nc.linint2K xiV yiV b xo yo icycx xmsgV).shape =
      b.shape.take (b.shape.length - 2) ++ [ny, nx])
    (hbn : ∀ b ∈ d.blocks, b.shape.length = n)
    (h2 : 2 ≤ n)
    (hne : d.blocks ≠ [])
    (h3 : 3 ≤ n ∨ ∃ b, d.blocks = [b]) :
    ∃ P : List Nat,
      (linint2ComputedResult nc fi xiV yiV d xo yo icycx xmsgV).shape = P ++ [ny, nx] ∧
      P.length = n - 2 := by
  cases hbl : d.blocks with
  | nil => exact absurd hbl hne
  | cons b0 bs =>
    have hb0 : b0 ∈ d.blocks := by rw [hbl]; exact List.mem_cons_self _ _
    have hL0 : b0.shape.length = n := hbn b0 hb0
    have hs0 := hker b0 hb0
    have hshape : (linint2ComputedResult nc fi xiV yiV d xo yo icycx xmsgV).shape =
        ((nc.linint2K xiV yiV b0 xo yo icycx xmsgV).shape.headD 0 +
          (((bs.map (fun b => nc.linint2K xiV yiV b xo yo icycx xmsgV)).map
            NDArray.shape).map (fun t => t.headD 0)).sum) ::
          (nc.linint2K xiV yiV b0 xo yo icycx xmsgV).shape.tail := by
      unfold linint2ComputedResult mapBlocksLinint2 DaskArray.compute
      rw [hbl]
      rw [List.map_cons, List.map_cons, concatShape_cons]
    rcases h3 with h3n | ⟨b, hb⟩
    · obtain ⟨m, hm⟩ := Nat.exists_eq_add_of_le h3n
      cases hbs : b0.shape with
      | nil =>
        rw [hbs] at hL0
        simp at hL0
        omega
      | cons a rest =>
        have hrl : rest.length = 2 + m := by
          rw [hbs] at hL0
          simp at hL0
          omega
        have hidx : (a :: rest).length - 2 = m + 1 := by
          simp only [List.length_cons, hrl]
          omega
        have htake : b0.shape.take (b0.shape.length - 2) = a :: rest.take m := by
          rw [hbs, hidx]
          rfl
        refine ⟨((nc.linint2K xiV yiV b0 xo yo icycx xmsgV).shape.headD 0 +
          (((bs.map (fun b => nc.linint2K xiV yiV b xo yo icycx xmsgV)).map
            NDArray.shape).map (fun t => t.headD 0)).sum) :: rest.take m, ?_, ?_⟩
        · rw [hshape, hs0, htake]
          rfl
        · have : (rest.take m).length = m := by
            rw [List.length_take]
            omega
          simp [this]
          omega
    · rw [hbl] at hb
      have hb0b : b0 = b := (List.cons.inj hb).1
      have hbs0 : bs = [] := (List.cons.inj hb).2
      subst hbs0
      cases htk : b0.shape.take (b0.shape.length - 2) with
      | nil =>
        have hn2 : n - 2 = 0 := by
          have := congrArg List.length htk
          rw [List.length_take] at this
          simp at this
          omega
        refine ⟨[], ?_, by simp [hn2]⟩
        rw [hshape, hs0, htk]
        simp
      | cons c t2 =>
        refine ⟨c :: t2, ?_, ?_⟩
        · rw [hshape, hs0, htk]
          simp
        · have := congrArg List.length htk
          rw [List.length_take] at this
          simp only [List.length_cons] at this ⊢
          omega

/-- C4: chunk-aware dispatch. linint2 declares output chunks identical
to fi's except that the rightmost two axes are dropped and re-added
with single chunks of sizes len(yo) and len(xo), and, when the kernel
keeps each block's leading sizes while producing the new spatial
sizes, the returned array has the same number of dimensions as fi with
the rightmost two dimensions sized len(yo) and len(xo). -/
theorem c4_chunked_dispatch (nc : NComp) (da : DataArray) (d : DaskArray)
    (xo yo : NDArray) (icycx : Bool) (xmsg : Option Val) (meta : Bool)
    (xi yi : Option NDArray) (xiV yiV : NDArray) (r : DataArray) (ny nx : Nat)
    (hdata : da.data = .daskData d)
    (hxi : resolveXi (.dataArray da) xi = .ok xiV)
    (hyi : resolveYi (.dataArray da) yi = .ok yiV)
    (hok : linint2 nc (.dataArray da) xo yo icycx xmsg meta xi yi = .ok r)
    (hyo : yo.shape = [ny]) (hxo : xo.shape = [nx])
    (hker : ∀ b ∈ d.blocks, (nc.linint2K xiV yiV b xo yo icycx
        (resolveXmsg nc (.dataArray da) xmsg)).shape =
        b.shape.take (b.shape.length - 2) ++ [ny, nx])
    (hbn : ∀ b ∈ d.blocks, b.shape.length = da.dims.length)
    (h2 : 2 ≤ da.dims.length)
    (hne : d.blocks ≠ [])
    (h3 : 3 ≤ da.dims.length ∨ ∃ b, d.blocks = [b]) :
    linint2DeclaredChunks d xo yo =
      d.chunks.take (d.chunks.length - 2) ++ [[ny], [nx]] ∧
    ∃ res : NDArray, r.data = .numpyData res ∧
      res.shape.length = da.dims.length ∧
      lastTwo res.shape = [ny, nx] := by
  constructor
  · unfold linint2DeclaredChunks setLastTwo
    rw [hyo, hxo]
  · obtain ⟨xiV2, yiV2, d2, hxi2, hyi2, hdb2, hr⟩ :=
      linint2_ok_elim nc da xo yo icycx xmsg meta xi yi r hok
    have hdb : FiInput.daskBacking (.dataArray da) = .ok d := by
      simp [FiInput.daskBacking, hdata]
    rw [hxi] at hxi2
    rw [hyi] at hyi2
    rw [hdb] at hdb2
    obtain rfl : xiV = xiV2 := Except.ok.inj hxi2
    obtain rfl : yiV = yiV2 := Except.ok.inj hyi2
    obtain rfl : d = d2 := Except.ok.inj hdb2
    obtain ⟨P, hPs, hPl⟩ := computed_shape_split nc (.dataArray da) xiV yiV d xo yo icycx
      (resolveXmsg nc (.dataArray da) xmsg) ny nx da.dims.length hker hbn h2 hne h3
    have hlen : (P ++ [ny, nx]).length = da.dims.length := by
      simp only [List.length_append, List.length_cons, List.length_nil]
      omega
    have hlast : lastTwo (P ++ [ny, nx]) = [ny, nx] := by
      unfold lastTwo
      have h1 : (P ++ [ny, nx]).length - 2 = P.length := by
        simp only [List.length_append, List.length_cons, List.length_nil]
        omega
      rw [h1, List.drop_left]
    cases meta with
    | true =>
      rw [if_pos rfl] at hr
      subst hr
      refine ⟨_, rfl, ?_, ?_⟩
      · rw [hPs]
        exact hlen
      · rw [hPs]
        exact hlast
    | false =>
      rw [if_neg (by simp)] at hr
      subst hr
      refine ⟨_, rfl, ?_, ?_⟩
      · rw [hPs]
        exact hlen
      · rw [hPs]
        exact hlast

/-- Witness for C4 at the sample chunked DataArray with the
shape-respecting kernel: dims stay 3 and the spatial sizes become 2
and 3. -/
theorem c4_chunked_dispatch_witness :
    sampleDa.data = .daskData sampleDask ∧
    resolveXi (.dataArray sampleDa) none = .ok sampleXiCoord ∧
    resolveYi (.dataArray sampleDa) none = .ok sampleYiCoord ∧
    sampleYo.shape = [2] ∧
    sampleXo.shape = [3] ∧
    (∀ b ∈ sampleDask.blocks, (sampleInterpNComp.linint2K sampleXiCoord sampleYiCoord b
        sampleXo sampleYo false
        (resolveXmsg sampleInterpNComp (.dataArray sampleDa) none)).shape =
        b.shape.take (b.shape.length - 2) ++ [2, 3]) ∧
    (∀ b ∈ sampleDask.blocks, b.shape.length = sampleDa.dims.length) ∧
    2 ≤ sampleDa.dims.length ∧
    sampleDask.blocks ≠ [] ∧
    3 ≤ sampleDa.dims.length ∧
    ∃ r : DataArray,
      linint2 sampleInterpNComp (.dataArray sampleDa) sampleXo sampleYo false none true
        none none = .ok r ∧
      (linint2DeclaredChunks sampleDask sampleXo sampleYo =
        sampleDask.chunks.take (sampleDask.chunks.length - 2) ++ [[2], [3]] ∧
      ∃ res : NDArray, r.data = .numpyData res ∧
        res.shape.length = sampleDa.dims.length ∧
        lastTwo res.shape = [2, 3]) :=
  ⟨rfl, rfl, rfl, rfl, rfl, by decide, by decide, by decide, by decide, by decide,
    ⟨linint2MetaResult sampleDa
        (linint2ComputedResult sampleInterpNComp (.dataArray sampleDa) sampleXiCoord
          sampleYiCoord sampleDask sampleXo sampleYo false 0) sampleXo sampleYo,
      rfl,
      c4_chunked_dispatch sampleInterpNComp sampleDa sampleDask sampleXo sampleYo false
        none true none none sampleXiCoord sampleYiCoord _ 2 3 rfl rfl rfl rfl rfl rfl
        (by decide) (by decide) (by decide) (by decide) (Or.inl (by decide))⟩⟩

end GeocatComp
